import Mathlib

/-!
Shallow embedding of src/ERP_CONRAT.py: the experiment phase controller of a
Connections + RAT behavioral experiment.  Pure state is modelled explicitly;
Tk after() callbacks are modelled as pending flags consumed by explicit timer
events; markers are an inductive type with a render function reproducing the
exact marker strings of the source.
-/

set_option autoImplicit false

namespace ERPConrat

/-- Marker vocabulary emitted by the program (source lines 160-170 and the
various on_marker call sites).  The render function below produces the exact
label strings of the source. -/
inductive Marker where
  | sessionStart : Marker
  | connStart (i : Nat) : Marker
  | connGuess (i g : Nat) (correct : Bool) : Marker
  | connEnd (i : Nat) : Marker
  | connRestStart (i : Nat) : Marker
  | connQ (i : Nat) (v : Option Nat) : Marker
  | connRestEnd (i : Nat) : Marker
  | ratStart (i : Nat) : Marker
  | ratResponse (i : Nat) (yes : Bool) : Marker
  | ratEnd (i : Nat) : Marker
  | ratRestStart (i : Nat) : Marker
  | ratRestEnd (i : Nat) : Marker
  | postStart : Marker
  | postQ (i : Nat) (v : Option Nat) : Marker
  | postEnd : Marker
deriving DecidableEq, Repr

/-- Render a marker to the exact label string used by the source
(f-strings at lines 397, 483, 503, 521, 594, 687, 694, 700, 851, 927-928,
940-941, 965, 981, 1004, 1077, 1085, 228, 282, 291). -/
def Marker.render : Marker → String
  | .sessionStart => "Session_Start"
  | .connStart i => "Connections" ++ toString i ++ "_Start"
  | .connGuess i g true => "Connections" ++ toString i ++ "_Guess" ++ toString g ++ "_Correct"
  | .connGuess i g false => "Connections" ++ toString i ++ "_Guess" ++ toString g ++ "_Incorrect"
  | .connEnd i => "Connections" ++ toString i ++ "_End"
  | .connRestStart i => "Connections" ++ toString i ++ "_Rest_Start"
  | .connQ i (some v) => "ConnectionQ" ++ toString i ++ "_" ++ toString v
  | .connQ i none => "ConnectionQ" ++ toString i ++ "_NoResponse"
  | .connRestEnd i => "Connections" ++ toString i ++ "_Rest_End"
  | .ratStart i => "RAT" ++ toString i ++ "_Start"
  | .ratResponse i true => "RAT" ++ toString i ++ "_Response_Y"
  | .ratResponse i false => "RAT" ++ toString i ++ "_Response_N"
  | .ratEnd i => "RAT" ++ toString i ++ "_End"
  | .ratRestStart i => "RAT" ++ toString i ++ "_Rest_Start"
  | .ratRestEnd i => "RAT" ++ toString i ++ "_Rest_End"
  | .postStart => "PostSurvey_Start"
  | .postQ i (some v) => "PostQ" ++ toString i ++ "_" ++ toString v
  | .postQ i none => "PostQ" ++ toString i ++ "_NoResponse"
  | .postEnd => "PostSurvey_End"

/-- Model of ExperimentApp.send_marker (source lines 160-170): prefix the
label with the player id, substituting NA when the id is unset (None) or the
empty string. -/
def send_marker (player_id : Option String) (label : String) : String :=
  let pid := match player_id with
    | none => "NA"
    | some s => if s = "" then "NA" else s
  "Player" ++ pid ++ "_" ++ label

/-- One word tile of a Connections puzzle (source line 585: dicts with keys
text, group, matched). -/
structure Tile where
  text : String
  group : String
  matched : Bool
deriving DecidableEq, Repr

/-- Default tile used for out-of-range indexing (the Python source indexes
tiles only with valid indices). -/
def defaultTile : Tile := { text := "", group := "", matched := false }

/-- State of one ConnectionsGame instance (source lines 552-594): puzzle
index, 16 tiles, current selection (list of tile indices, Python list kept in
click order), and the guess counter. -/
structure ConnGame where
  puzzleIndex : Nat
  tiles : List Tile
  selected : List Nat
  guessCount : Nat
deriving DecidableEq, Repr

/-- Construction of a fresh ConnectionsGame (source lines 552-594).  The
random sampling and shuffling of groups is external nondeterminism: the
already-shuffled tile list is a parameter.  Emits the Connections<i>_Start
marker (line 594). -/
def newConnGame (idx : Nat) (ts : List Tile) : ConnGame × List Marker :=
  ({ puzzleIndex := idx, tiles := ts, selected := [], guessCount := 0 },
   [.connStart idx])

/-- Mark every tile whose index is in the selection as matched (source lines
683-684). -/
def markMatched (ts : List Tile) (sel : List Nat) : List Tile :=
  ts.mapIdx fun i t => if i ∈ sel then { t with matched := true } else t

/-- Model of one full run of ConnectionsGame.check_selection (source lines
673-705): the new state, the markers this call itself emits, and whether the
delayed on_complete call (parent.after 2500, line 697) was scheduled.  This
function describes a single evaluation as a whole; it is not atomic in the
source: flash_correct_group (line 691) runs between the Guess_Correct
emission (line 687) and the End emission (line 694) and its parent.update()
calls dispatch queued input events, so other emissions can interleave
between this call's own two markers.  The run-level semantics therefore
uses the split functions check_selection_enter and check_selection_finish
below; this whole-call form backs the per-evaluation properties. -/
def check_selection (g : ConnGame) : ConnGame × List Marker × Bool :=
  let gc := g.guessCount + 1
  let groups := g.selected.map fun i => (g.tiles.getD i defaultTile).group
  let isCorrect := groups.all fun x => x == groups.headD ""
  if isCorrect then
    ({ g with tiles := markMatched g.tiles g.selected, selected := [], guessCount := gc },
     [.connGuess g.puzzleIndex gc true, .connEnd g.puzzleIndex], true)
  else
    ({ g with selected := [], guessCount := gc },
     [.connGuess g.puzzleIndex gc false], false)

/-- The selection update performed by toggle_tile before the length-4 check
(source lines 645-649): deselect if selected, otherwise add only when fewer
than 4 are selected. -/
def toggleSelect (sel : List Nat) (idx : Nat) : List Nat :=
  if idx ∈ sel then sel.erase idx
  else if sel.length < 4 then sel ++ [idx]
  else sel

/-- Model of ConnectionsGame.toggle_tile (source lines 640-655): ignore
matched tiles; update the selection; when the selection reaches 4, run
check_selection immediately. -/
def toggle_tile (g : ConnGame) (idx : Nat) : ConnGame × List Marker × Bool :=
  if (g.tiles.getD idx defaultTile).matched then (g, [], false)
  else
    let sel := toggleSelect g.selected idx
    let g1 := { g with selected := sel }
    if sel.length = 4 then check_selection g1 else (g1, [], false)

/-- Model of ConnectionsGame.deselect_all (source lines 657-661). -/
def deselect_all (g : ConnGame) : ConnGame :=
  { g with selected := [] }

/-- States of a ConnectionsGame reachable from a fresh puzzle by tile toggles
and deselect-all clicks. -/
inductive ConnReach : ConnGame → Prop where
  | init (idx : Nat) (ts : List Tile) :
      ConnReach { puzzleIndex := idx, tiles := ts, selected := [], guessCount := 0 }
  | toggle {g : ConnGame} (i : Nat) : ConnReach g → ConnReach (toggle_tile g i).1
  | deselect {g : ConnGame} : ConnReach g → ConnReach (deselect_all g)

/-- The ten RAT prompts (source lines 58-69); only the length drives control
flow. -/
def RAT_PROMPTS : List String :=
  ["cottage / swiss / cake", "cream / skate / water", "rocking / wheel / high",
   "show / life / row", "fountain / baking / pop", "duck / fold / dollar",
   "sleeping / bean / trash", "dew / comb / bee", "night / wrist / stop",
   "loser / throat / spot"]

/-- Phase of the RAT state machine (source line 756: think, reveal, rest,
done). -/
inductive RPhase where
  | think : RPhase
  | reveal : RPhase
  | rest : RPhase
  | done : RPhase
deriving DecidableEq, Repr

/-- State of RATGame (source lines 748-774).  The Tk after() handles
_think_after_id and _rest_after_id are modelled as pending flags; cancelling
clears the flag, and the corresponding timer event only acts while the flag
is set. -/
structure RATState where
  index : Nat
  phase : RPhase
  awaiting : Bool
  thinkRemaining : Nat
  restRemaining : Nat
  thinkPending : Bool
  restPending : Bool
deriving DecidableEq, Repr

/-- Model of RATGame.reveal_phase (source lines 869-897): cancel the think
timer, and unless the item already moved to rest or done, enter the reveal
phase awaiting a Y/N response.  No marker is emitted here. -/
def reveal_phase (s : RATState) : RATState × List Marker :=
  let s1 := { s with thinkPending := false }
  if s.phase = .rest ∨ s.phase = .done then (s1, [])
  else ({ s1 with phase := .reveal, awaiting := true }, [])

/-- Model of RATGame._tick_think (source lines 856-866): do nothing when the
phase is no longer think; otherwise count down once per second and reveal at
zero. -/
def tick_think (s : RATState) : RATState × List Marker :=
  if s.phase ≠ .think then (s, [])
  else if s.thinkRemaining > 0 then
    ({ s with thinkRemaining := s.thinkRemaining - 1, thinkPending := true }, [])
  else reveal_phase s

/-- Model of RATGame.show_think_phase (source lines 817-854): cancel stale
timers, enter think with a 10 second countdown, emit RAT<i>_Start and run the
first tick directly. -/
def show_think_phase (s : RATState) : RATState × List Marker :=
  let s1 := { s with thinkPending := false, restPending := false,
                     phase := .think, awaiting := false, thinkRemaining := 10 }
  let (s2, m2) := tick_think s1
  (s2, [.ratStart (s.index + 1)] ++ m2)

/-- Model of RATGame.start_next_item (source lines 803-814): cancel pending
timers, then either signal completion (phase done, on_complete fires) after
the tenth item or start the next think phase. -/
def start_next_item (s : RATState) : RATState × List Marker :=
  let s1 := { s with thinkPending := false, restPending := false }
  if s.index ≥ RAT_PROMPTS.length then ({ s1 with phase := .done }, [])
  else show_think_phase s1

/-- Model of RATGame._tick_rest (source lines 969-985): do nothing when the
phase is no longer rest; count down; at zero emit RAT<i>_Rest_End, advance
the item index and start the next item. -/
def tick_rest (s : RATState) : RATState × List Marker :=
  if s.phase ≠ .rest then (s, [])
  else if s.restRemaining > 0 then
    ({ s with restRemaining := s.restRemaining - 1, restPending := true }, [])
  else
    let s1 := { s with restPending := false, index := s.index + 1 }
    let (s2, m2) := start_next_item s1
    (s2, [.ratRestEnd (s.index + 1)] ++ m2)

/-- Model of RATGame.start_rest_phase (source lines 946-967): unbind keys,
cancel the think timer, enter rest with a 15 second countdown, emit
RAT<i>_Rest_Start and run the first tick directly. -/
def start_rest_phase (s : RATState) : RATState × List Marker :=
  let s1 := { s with thinkPending := false, phase := .rest, restRemaining := 15 }
  let (s2, m2) := tick_rest s1
  (s2, [.ratRestStart (s.index + 1)] ++ m2)

/-- Model of RATGame._on_yes (source lines 919-930): guarded by phase reveal
and awaiting; emits Response_Y then End and starts the rest phase. -/
def on_yes (s : RATState) : RATState × List Marker :=
  if s.phase = .reveal ∧ s.awaiting then
    let s1 := { s with awaiting := false }
    let (s2, m2) := start_rest_phase s1
    (s2, [.ratResponse (s.index + 1) true, .ratEnd (s.index + 1)] ++ m2)
  else (s, [])

/-- Model of RATGame._on_no (source lines 932-943): guarded by phase reveal
and awaiting; emits Response_N then End and starts the rest phase. -/
def on_no (s : RATState) : RATState × List Marker :=
  if s.phase = .reveal ∧ s.awaiting then
    let s1 := { s with awaiting := false }
    let (s2, m2) := start_rest_phase s1
    (s2, [.ratResponse (s.index + 1) false, .ratEnd (s.index + 1)] ++ m2)
  else (s, [])

/-- Model of RATGame.force_advance (source lines 988-1008): think jumps to
reveal, reveal records a No (only when still awaiting), rest emits Rest_End
and advances, done is a no-op. -/
def force_advance (s : RATState) : RATState × List Marker :=
  match s.phase with
  | .think =>
      let s1 := { s with thinkPending := false }
      reveal_phase s1
  | .reveal =>
      if s.awaiting then on_no s else (s, [])
  | .rest =>
      let s1 := { s with restPending := false, index := s.index + 1 }
      let (s2, m2) := start_next_item s1
      (s2, [.ratRestEnd (s.index + 1)] ++ m2)
  | .done => (s, [])

/-- Model of PostQuestionnaire state (source lines 1014-1087): only the item
index matters; there are five placeholder questions. -/
structure PostQState where
  index : Nat
deriving DecidableEq, Repr

/-- Number of post-questionnaire items (source lines 1030-1036). -/
def POSTQ_COUNT : Nat := 5

/-- Model of PostQuestionnaire.record_response (source lines 1075-1079):
emit PostQ<i>_<value> and advance. -/
def record_response (q : PostQState) (v : Nat) : PostQState × List Marker :=
  ({ index := q.index + 1 }, [.postQ (q.index + 1) (some v)])

/-- Model of PostQuestionnaire.skip_current (source lines 1081-1087): when an
item is still pending, emit PostQ<i>_NoResponse and advance. -/
def skip_current (q : PostQState) : PostQState × List Marker :=
  if q.index < POSTQ_COUNT then
    ({ index := q.index + 1 }, [.postQ (q.index + 1) none])
  else (q, [])

/-- Which screen currently occupies the main frame during the Connections
stage (puzzle grid, rest screen, the RAT instructions message screen, or the
RAT task after its on_next fired). -/
inductive UiKind where
  | puzzle : UiKind
  | rest : UiKind
  | ratInstr : UiKind
  | ratTask : UiKind
deriving DecidableEq, Repr

/-- The callbacks the slot _last_on_next can hold during the Connections
stage (source lines 438 and the center_message_screen call for the RAT
instructions, line 258 via 207). -/
inductive PendingCb where
  | endConnRest : PendingCb
  | startRat : PendingCb
deriving DecidableEq, Repr

/-- Connections-stage configuration of ExperimentApp (source lines 126-157):
completion counter, the conn attribute (never deleted by the source), rest
state, the rating choice, the recorded spontaneity sequence, the
_last_on_next slot, and the number of scheduled 2500 ms on_complete
callbacks (line 697), which the source never cancels. -/
structure Cfg where
  completed : Nat
  conn : Option ConnGame
  ui : UiKind
  restActive : Bool
  restRemaining : Nat
  restPending : Bool
  ratingChoice : Option Nat
  restForIdx : Nat
  spontaneity : List (Option Nat)
  lastOnNext : Option PendingCb
  pendingComplete : Nat
deriving Repr

/-- Model of ExperimentApp._end_connections_rest (source lines 485-535):
cancel the rest tick, emit ConnectionQ<i>_NoResponse when no rating was
chosen, append the choice to the spontaneity sequence, tear down the rest
UI, emit Connections<i>_Rest_End, then start the next puzzle while fewer
than 15 are completed, otherwise show the RAT instructions.  Note that the
source does not clear _last_on_next here. -/
def end_connections_rest (tf : Nat → List Tile) (cfg : Cfg) : Cfg × List Marker :=
  let m1 : List Marker :=
    if cfg.ratingChoice = none then [.connQ cfg.restForIdx none] else []
  let cfg1 := { cfg with restPending := false,
                         spontaneity := cfg.spontaneity ++ [cfg.ratingChoice],
                         restActive := false }
  let m2 : List Marker := [.connRestEnd cfg.restForIdx]
  if cfg.completed < 15 then
    let r := newConnGame (cfg.completed + 1) (tf (cfg.completed + 1))
    ({ cfg1 with conn := some r.1, ui := .puzzle }, m1 ++ m2 ++ r.2)
  else
    ({ cfg1 with ui := .ratInstr, lastOnNext := some .startRat }, m1 ++ m2)

/-- Model of ExperimentApp._tick_connections_rest (source lines 443-453):
guarded by _conn_rest_active; count down once per second, and at zero end
the rest. -/
def tick_connections_rest (tf : Nat → List Tile) (cfg : Cfg) : Cfg × List Marker :=
  if !cfg.restActive then (cfg, [])
  else if cfg.restRemaining > 0 then
    ({ cfg with restRemaining := cfg.restRemaining - 1, restPending := true }, [])
  else end_connections_rest tf cfg

/-- Model of ExperimentApp._start_connections_rest (source lines 377-441):
clear the puzzle UI, initialize the rest state, emit
Connections<i>_Rest_Start, point _last_on_next at _end_connections_rest and
run the first countdown tick directly. -/
def start_connections_rest (tf : Nat → List Tile) (i : Nat) (cfg : Cfg) : Cfg × List Marker :=
  let cfg1 := { cfg with ui := .rest, restActive := true, restRemaining := 15,
                         ratingChoice := none, restForIdx := i,
                         lastOnNext := some .endConnRest }
  let r := tick_connections_rest tf cfg1
  (r.1, [.connRestStart i] ++ r.2)

/-- Model of ExperimentApp._conn_select_rating (source lines 455-483): ignore
clicks outside an active rest or once a choice is bound; otherwise bind the
first choice and emit ConnectionQ<i>_<value>. -/
def conn_select_rating (cfg : Cfg) (v : Nat) : Cfg × List Marker :=
  if !cfg.restActive then (cfg, [])
  else if cfg.ratingChoice ≠ none then (cfg, [])
  else ({ cfg with ratingChoice := some v }, [.connQ cfg.restForIdx (some v)])

/-- Model of ExperimentApp.on_connections_puzzle_complete (source lines
316-324): count the puzzle as completed and start the rest screen for it. -/
def on_connections_puzzle_complete (tf : Nat → List Tile) (cfg : Cfg) : Cfg × List Marker :=
  start_connections_rest tf (cfg.completed + 1) { cfg with completed := cfg.completed + 1 }

/-- Model of ExperimentApp._master_skip (source lines 338-371) restricted to
the Connections stage: first a pending _last_on_next callback, then an
active rest, then an existing ConnectionsGame; the RAT and post-question
branches are outside this stage model (conn is never none once the stage has
started). -/
def master_skip (tf : Nat → List Tile) (cfg : Cfg) : Cfg × List Marker :=
  match cfg.lastOnNext with
  | some cb =>
      let cfg1 := { cfg with lastOnNext := none }
      match cb with
      | .endConnRest => end_connections_rest tf cfg1
      | .startRat => ({ cfg1 with ui := .ratTask }, [])
  | none =>
      if cfg.restActive then end_connections_rest tf cfg
      else match cfg.conn with
        | some _ => on_connections_puzzle_complete tf cfg
        | none => (cfg, [])

/-- External events driving the Connections stage: tile clicks, the
deselect-all button, rating clicks, the scheduled 1 second rest tick, the
scheduled 2500 ms on_complete delay expiring, and the master skip key. -/
inductive Ev where
  | toggle (idx : Nat) : Ev
  | deselectAll : Ev
  | rate (v : Nat) : Ev
  | restTick : Ev
  | fireComplete : Ev
  | skip : Ev
deriving DecidableEq, Repr

/-- One event step of the Connections stage.  Tile events act only while the
puzzle grid is on screen; the timer events act only while the corresponding
callback is actually scheduled.  An evaluation is one step here, its two
markers adjacent: this coarse model backs closed runs in which no input is
dispatched during a flash window; the refined model stepR below splits the
evaluation and admits the interleavings that parent.update() makes
possible. -/
def stepC (tf : Nat → List Tile) (cfg : Cfg) (e : Ev) : Cfg × List Marker :=
  match e with
  | .toggle idx =>
      match cfg.ui, cfg.conn with
      | .puzzle, some g =>
          let r := toggle_tile g idx
          ({ cfg with conn := some r.1,
                      pendingComplete := cfg.pendingComplete + (if r.2.2 then 1 else 0) },
           r.2.1)
      | _, _ => (cfg, [])
  | .deselectAll =>
      match cfg.ui, cfg.conn with
      | .puzzle, some g => ({ cfg with conn := some (deselect_all g) }, [])
      | _, _ => (cfg, [])
  | .rate v => conn_select_rating cfg v
  | .restTick =>
      if cfg.restPending then tick_connections_rest tf { cfg with restPending := false }
      else (cfg, [])
  | .fireComplete =>
      if cfg.pendingComplete > 0 then
        on_connections_puzzle_complete tf { cfg with pendingComplete := cfg.pendingComplete - 1 }
      else (cfg, [])
  | .skip => master_skip tf cfg

/-- Model of ExperimentApp.start_connections_game (source lines 300-314):
reset the completion counter, clear _last_on_next, and start puzzle 1. -/
def initC (tf : Nat → List Tile) : Cfg × List Marker :=
  let r := newConnGame 1 (tf 1)
  ({ completed := 0, conn := some r.1, ui := .puzzle, restActive := false,
     restRemaining := 0, restPending := false, ratingChoice := none,
     restForIdx := 0, spontaneity := [], lastOnNext := none,
     pendingComplete := 0 }, r.2)

/-- Run a list of events from a configuration, concatenating the emitted
markers. -/
def runFrom (tf : Nat → List Tile) (cfg : Cfg) : List Ev → Cfg × List Marker
  | [] => (cfg, [])
  | e :: es =>
      let r1 := stepC tf cfg e
      let r2 := runFrom tf r1.1 es
      (r2.1, r1.2 ++ r2.2)

/-- Run a full Connections-stage session: start the stage, then process the
events. -/
def runC (tf : Nat → List Tile) (evs : List Ev) : Cfg × List Marker :=
  let r0 := initC tf
  let r1 := runFrom tf r0.1 evs
  (r1.1, r0.2 ++ r1.2)

/-- A concrete shuffled tile layout used for closed runs: four groups of
four. -/
def demoTiles : Nat → List Tile := fun _ =>
  [⟨"w0", "A", false⟩, ⟨"w1", "A", false⟩, ⟨"w2", "A", false⟩, ⟨"w3", "A", false⟩,
   ⟨"w4", "B", false⟩, ⟨"w5", "B", false⟩, ⟨"w6", "B", false⟩, ⟨"w7", "B", false⟩,
   ⟨"w8", "C", false⟩, ⟨"w9", "C", false⟩, ⟨"w10", "C", false⟩, ⟨"w11", "C", false⟩,
   ⟨"w12", "D", false⟩, ⟨"w13", "D", false⟩, ⟨"w14", "D", false⟩, ⟨"w15", "D", false⟩]

/-- First half of ConnectionsGame.check_selection as it actually executes
(source lines 673-691): increment guess_count, judge the four selected
tiles; on success mark them matched and emit Guess_Correct, leaving the
selection in place (it is cleared only at line 703, after the flash) and
leaving the End emission and on_complete scheduling to the code after
flash_correct_group, during whose parent.update() calls queued input events
are dispatched; on failure (no update() runs there) emit Guess_Incorrect
and clear the selection.  The Bool reports whether a success frame is now
pending. -/
def check_selection_enter (g : ConnGame) : ConnGame × List Marker × Bool :=
  let gc := g.guessCount + 1
  let groups := g.selected.map fun i => (g.tiles.getD i defaultTile).group
  let isCorrect := groups.all fun x => x == groups.headD ""
  if isCorrect then
    ({ g with tiles := markMatched g.tiles g.selected, guessCount := gc },
     [.connGuess g.puzzleIndex gc true], true)
  else
    ({ g with selected := [], guessCount := gc },
     [.connGuess g.puzzleIndex gc false], false)

/-- ConnectionsGame.toggle_tile (source lines 640-655) with the evaluation
entered non-atomically: identical to toggle_tile except that a correct
evaluation stops at the flash window. -/
def toggle_tile_enter (g : ConnGame) (idx : Nat) : ConnGame × List Marker × Bool :=
  if (g.tiles.getD idx defaultTile).matched then (g, [], false)
  else
    let sel := toggleSelect g.selected idx
    let g1 := { g with selected := sel }
    if sel.length = 4 then check_selection_enter g1 else (g1, [], false)

/-- Second half of a successful check_selection (source lines 694-703),
resumed when flash_correct_group returns: emit Connections<i>_End for the
evaluating game, schedule the 2500 ms on_complete, and clear the selection
of the evaluating game (observable only while it is still the installed
game, identified by its puzzle index). -/
def check_selection_finish (pidx : Nat) (cfg : Cfg) : Cfg × List Marker :=
  ({ cfg with pendingComplete := cfg.pendingComplete + 1,
              conn := match cfg.conn with
                | some g => if g.puzzleIndex = pidx then some { g with selected := [] }
                            else some g
                | none => none },
   [.connEnd pidx])

/-- Configuration of the refined (re-entrant) run model: the stage
configuration plus the stack of evaluations whose flash window is open
(innermost first); each frame records the puzzle index of its evaluating
game. -/
structure RCfg where
  cfg : Cfg
  flash : List Nat
deriving Repr

/-- Events of the refined model: the stage events plus flashDone, the
return of the innermost flash_correct_group, which resumes that evaluation
with the End emission.  Events between an evaluation's entry and its
flashDone are exactly the queued inputs that parent.update() dispatches
inside the flash window. -/
inductive EvR where
  | toggle (idx : Nat) : EvR
  | deselectAll : EvR
  | rate (v : Nat) : EvR
  | restTick : EvR
  | fireComplete : EvR
  | skip : EvR
  | flashDone : EvR
deriving DecidableEq, Repr

/-- One event step of the refined model.  Identical to stepC except that a
correct evaluation emits only its Guess_Correct and pushes a flash frame;
the matching End is emitted by the flashDone event, so arbitrary dispatched
events (including nested evaluations from tile clicks on the still-full
selection) can interleave between the two markers, as in the source. -/
def stepR (tf : Nat → List Tile) (r : RCfg) (e : EvR) : RCfg × List Marker :=
  match e with
  | .toggle idx =>
      match r.cfg.ui, r.cfg.conn with
      | .puzzle, some g =>
          let t := toggle_tile_enter g idx
          ({ cfg := { r.cfg with conn := some t.1 },
             flash := (if t.2.2 then [g.puzzleIndex] else []) ++ r.flash }, t.2.1)
      | _, _ => (r, [])
  | .deselectAll =>
      match r.cfg.ui, r.cfg.conn with
      | .puzzle, some g =>
          ({ r with cfg := { r.cfg with conn := some (deselect_all g) } }, [])
      | _, _ => (r, [])
  | .rate v =>
      let t := conn_select_rating r.cfg v
      ({ r with cfg := t.1 }, t.2)
  | .restTick =>
      if r.cfg.restPending then
        let t := tick_connections_rest tf { r.cfg with restPending := false }
        ({ r with cfg := t.1 }, t.2)
      else (r, [])
  | .fireComplete =>
      if r.cfg.pendingComplete > 0 then
        let t := on_connections_puzzle_complete tf
          { r.cfg with pendingComplete := r.cfg.pendingComplete - 1 }
        ({ r with cfg := t.1 }, t.2)
      else (r, [])
  | .skip =>
      let t := master_skip tf r.cfg
      ({ r with cfg := t.1 }, t.2)
  | .flashDone =>
      match r.flash with
      | [] => (r, [])
      | pidx :: rest =>
          let t := check_selection_finish pidx r.cfg
          ({ cfg := t.1, flash := rest }, t.2)

/-- Run a list of refined events from a refined configuration. -/
def runRFrom (tf : Nat → List Tile) (r : RCfg) : List EvR → RCfg × List Marker
  | [] => (r, [])
  | e :: es =>
      let r1 := stepR tf r e
      let r2 := runRFrom tf r1.1 es
      (r2.1, r1.2 ++ r2.2)

/-- Run a full Connections-stage session in the refined model. -/
def runR (tf : Nat → List Tile) (evs : List EvR) : RCfg × List Marker :=
  let r0 := initC tf
  let r1 := runRFrom tf { cfg := r0.1, flash := [] } evs
  (r1.1, r0.2 ++ r1.2)

/-- A trace in which every Connections<i>_End marker comes after (at some
strictly earlier position) a Connections<i>_Guess<g>_Correct marker with
the same block index. -/
def EndsAfterCorrect (tr : List Marker) : Prop :=
  ∀ (n i : Nat), tr[n]? = some (Marker.connEnd i) →
    ∃ m g, m < n ∧ tr[m]? = some (Marker.connGuess i g true)

/-- Every open flash frame is justified by a Guess_Correct marker for its
puzzle index already present in the trace (the frame was pushed by the
evaluation that emitted that marker). -/
def FramesJustified (r : RCfg) (tr : List Marker) : Prop :=
  ∀ i ∈ r.flash, ∃ g, Marker.connGuess i g true ∈ tr

/-- A configuration with an active rest screen for puzzle 1 and no rating
bound yet; used to instantiate theorems with hypotheses. -/
def restCfg : Cfg :=
  { completed := 1, conn := some (newConnGame 2 (demoTiles 2)).1, ui := .rest,
    restActive := true, restRemaining := 10, restPending := true,
    ratingChoice := none, restForIdx := 1, spontaneity := [],
    lastOnNext := some .endConnRest, pendingComplete := 0 }

/-- The rest configuration after a rating of 3 has been bound. -/
def boundCfg : Cfg := { restCfg with ratingChoice := some 3 }

/-- The configuration right after the Connections stage starts: puzzle 1 on
screen, nothing pending. -/
def puzzleCfg : Cfg := (initC demoTiles).1

/-- A rest configuration for the mid-stage loop decision (three puzzles
completed). -/
def midRestCfg : Cfg := { restCfg with completed := 3, restForIdx := 3 }

/-- A rest configuration after the fifteenth puzzle. -/
def lastRestCfg : Cfg := { restCfg with completed := 15, restForIdx := 15 }

/-- A RAT state in the think phase. -/
def thinkState : RATState :=
  { index := 0, phase := .think, awaiting := false, thinkRemaining := 7,
    restRemaining := 0, thinkPending := true, restPending := false }

/-- A RAT state in the reveal phase awaiting a response. -/
def revealState : RATState :=
  { index := 3, phase := .reveal, awaiting := true, thinkRemaining := 0,
    restRemaining := 0, thinkPending := false, restPending := false }

/-- A RAT state in the rest phase of a middle item. -/
def restState : RATState :=
  { index := 2, phase := .rest, awaiting := false, thinkRemaining := 0,
    restRemaining := 5, thinkPending := false, restPending := true }

/-- A RAT state in the rest phase of the tenth item. -/
def lastRestState : RATState := { restState with index := 9 }

/-- A RAT state after all ten items. -/
def doneState : RATState :=
  { index := 10, phase := .done, awaiting := false, thinkRemaining := 0,
    restRemaining := 0, thinkPending := false, restPending := false }

/-- A puzzle-1 game with three tiles of group A selected, one toggle away
from a complete guess. -/
def toggleG : ConnGame :=
  { puzzleIndex := 1, tiles := demoTiles 1, selected := [0, 1, 2], guessCount := 0 }

/-- A puzzle-1 game with a full 4-tile selection of group A, ready for
evaluation. -/
def fullSelG : ConnGame := { toggleG with selected := [0, 1, 2, 3] }

/-- A puzzle-1 game with a full 4-tile selection spanning groups A and B. -/
def mixedSelG : ConnGame := { toggleG with selected := [0, 1, 2, 4] }

/-!  Theorems.  -/

/-- Evaluation always clears the selection (source line 703, after both
branches). -/
theorem check_selection_selected (g : ConnGame) : (check_selection g).1.selected = [] := by
  simp only [check_selection]
  split <;> rfl

/-- Evaluation always increments the guess counter (source line 676). -/
theorem check_selection_guessCount (g : ConnGame) :
    (check_selection g).1.guessCount = g.guessCount + 1 := by
  simp only [check_selection]
  split <;> rfl

/-- The selection update of toggle_tile never grows the selection past
four. -/
theorem toggleSelect_length_le (sel : List Nat) (idx : Nat) (h : sel.length ≤ 4) :
    (toggleSelect sel idx).length ≤ 4 := by
  unfold toggleSelect
  split
  · exact le_trans (List.erase_sublist idx sel).length_le h
  · split
    · simp only [List.length_append, List.length_cons, List.length_nil]
      omega
    · exact h

/-- A tile toggle keeps the selection at four tiles at most. -/
theorem toggle_tile_length_le (g : ConnGame) (i : Nat) (h : g.selected.length ≤ 4) :
    (toggle_tile g i).1.selected.length ≤ 4 := by
  simp only [toggle_tile]
  split
  · exact h
  · split
    · rw [check_selection_selected]
      exact Nat.zero_le 4
    · exact toggleSelect_length_le g.selected i h

/-- C7: in every reachable state of a Connections block the selection holds
at most four tile indices, and a toggle that brings the selection to four
runs evaluation immediately, leaving the selection empty (and the guess
counter incremented) whatever the outcome. -/
theorem c7_selection_invariant :
    (∀ g : ConnGame, ConnReach g → g.selected.length ≤ 4) ∧
    (∀ (g : ConnGame) (idx : Nat),
       (g.tiles.getD idx defaultTile).matched = false →
       (toggleSelect g.selected idx).length = 4 →
       toggle_tile g idx = check_selection { g with selected := toggleSelect g.selected idx } ∧
       (toggle_tile g idx).1.selected = [] ∧
       (toggle_tile g idx).1.guessCount = g.guessCount + 1) := by
  constructor
  · intro g hg
    induction hg with
    | init idx ts => simp
    | toggle i hr ih => exact toggle_tile_length_le _ i ih
    | deselect hr ih => simp [deselect_all]
  · intro g idx hm h4
    have hm2 : (g.tiles[idx]?.getD defaultTile).matched = false := by
      simpa [List.getD_eq_getElem?_getD] using hm
    have he : toggle_tile g idx =
        check_selection { g with selected := toggleSelect g.selected idx } := by
      simp [toggle_tile, hm2, h4]
    refine ⟨he, ?_, ?_⟩
    · rw [he]
      exact check_selection_selected _
    · rw [he]
      exact check_selection_guessCount _

/-- Witness for C7: the fresh puzzle-1 state is reachable with an empty
selection, and toggling the fourth group-A tile on the concrete three-tile
selection evaluates and clears. -/
theorem c7_witness :
    (newConnGame 1 (demoTiles 1)).1.selected.length ≤ 4 ∧
    (toggle_tile toggleG 3).1.selected = [] ∧
    (toggle_tile toggleG 3).1.guessCount = 1 :=
  ⟨c7_selection_invariant.1 _ (ConnReach.init 1 (demoTiles 1)),
   (c7_selection_invariant.2 toggleG 3 (by decide) (by decide)).2.1,
   (c7_selection_invariant.2 toggleG 3 (by decide) (by decide)).2.2⟩

/-- C1: a master skip while a Connections puzzle is the active sub-machine
(callback slot empty, no rest active, a game present) advances the session
directly to the post-puzzle rating rest for that puzzle: the completion
counter moves to the puzzle index, the rest screen for that index starts
with no rating bound, only the Rest_Start marker is emitted, and the game
state (hence every tile, none newly matched) is left untouched.  The
configuration is arbitrary, so this holds at every point of the 15-block
loop. -/
theorem c1_master_skip_during_puzzle (tf : Nat → List Tile) (cfg : Cfg) (g : ConnGame)
    (hnext : cfg.lastOnNext = none) (hrest : cfg.restActive = false)
    (hconn : cfg.conn = some g) (hidx : g.puzzleIndex = cfg.completed + 1) :
    master_skip tf cfg =
      ({ cfg with completed := g.puzzleIndex, ui := .rest, restActive := true,
                  restRemaining := 14, restPending := true, ratingChoice := none,
                  restForIdx := g.puzzleIndex, lastOnNext := some .endConnRest },
       [.connRestStart g.puzzleIndex]) := by
  rw [hidx]
  obtain ⟨comp, conn, ui, ra, rr, rp, rc, rfi, sp, lon, pc⟩ := cfg
  simp only at hnext hrest hconn hidx
  subst hnext
  subst hrest
  subst hconn
  simp [master_skip, on_connections_puzzle_complete, start_connections_rest,
        tick_connections_rest]

/-- Witness for C1 at the stage-start configuration with puzzle 1 active. -/
theorem c1_witness :
    master_skip demoTiles puzzleCfg =
      ({ puzzleCfg with completed := 1, ui := .rest, restActive := true,
                        restRemaining := 14, restPending := true, ratingChoice := none,
                        restForIdx := 1, lastOnNext := some .endConnRest },
       [.connRestStart 1]) :=
  c1_master_skip_during_puzzle demoTiles puzzleCfg (newConnGame 1 (demoTiles 1)).1
    rfl rfl rfl rfl

/-- C5: the Connections stage uses loop bound 15: when a rating rest ends
with fewer than 15 puzzles completed, the next Connections block (with the
next 1-based index) is started; when it ends with 15 completed, the next
phase is the RAT instructions, no new block is started and no
Connections_Start marker is emitted. -/
theorem c5_fifteen_block_loop (tf : Nat → List Tile) (cfg : Cfg) :
    (cfg.completed < 15 →
       (end_connections_rest tf cfg).1.ui = .puzzle ∧
       (end_connections_rest tf cfg).1.conn =
         some { puzzleIndex := cfg.completed + 1, tiles := tf (cfg.completed + 1),
                selected := [], guessCount := 0 } ∧
       Marker.connStart (cfg.completed + 1) ∈ (end_connections_rest tf cfg).2) ∧
    (15 ≤ cfg.completed →
       (end_connections_rest tf cfg).1.ui = .ratInstr ∧
       (end_connections_rest tf cfg).1.conn = cfg.conn ∧
       ∀ j, Marker.connStart j ∉ (end_connections_rest tf cfg).2) := by
  constructor
  · intro h
    rcases hrc : cfg.ratingChoice with _ | v <;>
      refine ⟨?_, ?_, ?_⟩ <;>
        simp [end_connections_rest, newConnGame, h, hrc]
  · intro h
    have h2 : ¬ cfg.completed < 15 := Nat.not_lt.mpr h
    rcases hrc : cfg.ratingChoice with _ | v <;>
      refine ⟨?_, ?_, ?_⟩ <;>
        simp [end_connections_rest, newConnGame, h2, hrc]

/-- Witness for C5: a rest end with three completed puzzles starts a new
puzzle, a rest end with fifteen completed moves to the RAT instructions. -/
theorem c5_witness :
    (end_connections_rest demoTiles midRestCfg).1.ui = .puzzle ∧
    (end_connections_rest demoTiles lastRestCfg).1.ui = .ratInstr :=
  ⟨((c5_fifteen_block_loop demoTiles midRestCfg).1 (by decide)).1,
   ((c5_fifteen_block_loop demoTiles lastRestCfg).2 (by decide)).1⟩

/-- A nonempty list of strings is all equal to its default-headed head
exactly when some single label covers the whole list. -/
theorem all_eq_headD_iff (l : List String) (hne : l ≠ []) :
    (l.all fun x => x == l.headD "") = true ↔ ∃ lab, ∀ x ∈ l, x = lab := by
  cases l with
  | nil => exact absurd rfl hne
  | cons a t =>
    simp only [List.all_eq_true, List.headD_cons, beq_iff_eq]
    constructor
    · intro h
      exact ⟨a, h⟩
    · rintro ⟨lab, h⟩ x hx
      rw [h x hx, h a (List.mem_cons_self a t)]

/-- Reading a marked tile list at a valid index: tiles in the selection come
back matched, others unchanged. -/
theorem markMatched_getD (ts : List Tile) (sel : List Nat) (i : Nat) (h : i < ts.length) :
    (markMatched ts sel).getD i defaultTile =
      (if i ∈ sel then { ts.getD i defaultTile with matched := true }
       else ts.getD i defaultTile) := by
  have hlen : i < (markMatched ts sel).length := by
    simpa [markMatched, List.length_mapIdx] using h
  rw [List.getD_eq_getElem _ _ hlen, List.getD_eq_getElem _ _ h]
  simp [markMatched, List.getElem_mapIdx]

/-- C8: evaluating a 4-tile guess increments guess_count by one and judges
it correct exactly when the four selected tiles share one group label; on
correct it marks the selected tiles matched, emits Guess_Correct then End
and schedules the delayed on_complete; on incorrect it emits
Guess_Incorrect, the tiles are untouched and no completion is scheduled;
the behavior does not depend on how many guesses were already made, so
there is no guess limit. -/
theorem c8_check_selection_eval (g : ConnGame)
    (h4 : g.selected.length = 4)
    (hv : ∀ i ∈ g.selected, i < g.tiles.length) :
    (check_selection g).1.guessCount = g.guessCount + 1 ∧
    (check_selection g).1.selected = [] ∧
    ((∃ lab, ∀ i ∈ g.selected, (g.tiles.getD i defaultTile).group = lab) →
       (check_selection g).2.1 =
         [.connGuess g.puzzleIndex (g.guessCount + 1) true, .connEnd g.puzzleIndex] ∧
       (check_selection g).2.2 = true ∧
       ∀ i ∈ g.selected, ((check_selection g).1.tiles.getD i defaultTile).matched = true) ∧
    ((¬ ∃ lab, ∀ i ∈ g.selected, (g.tiles.getD i defaultTile).group = lab) →
       (check_selection g).2.1 =
         [.connGuess g.puzzleIndex (g.guessCount + 1) false] ∧
       (check_selection g).2.2 = false ∧
       (check_selection g).1.tiles = g.tiles) := by
  have hne : (g.selected.map fun i => (g.tiles.getD i defaultTile).group) ≠ [] := by
    intro hcon
    have := congrArg List.length hcon
    simp [h4] at this
  have hiff := all_eq_headD_iff _ hne
  simp only [List.forall_mem_map] at hiff
  refine ⟨check_selection_guessCount g, check_selection_selected g, ?_, ?_⟩
  · intro hc
    have hcond :
        ((g.selected.map fun i => (g.tiles.getD i defaultTile).group).all
          (fun x => x == (g.selected.map fun i => (g.tiles.getD i defaultTile).group).headD ""))
          = true := hiff.mpr hc
    refine ⟨?_, ?_, ?_⟩
    · simp only [check_selection]
      rw [hcond]
      simp
    · simp only [check_selection]
      rw [hcond]
      simp
    · intro i hi
      have htiles : (check_selection g).1.tiles = markMatched g.tiles g.selected := by
        simp only [check_selection]
        rw [hcond]
        simp
      rw [htiles, markMatched_getD _ _ _ (hv i hi)]
      simp [hi]
  · intro hc
    have hcond :
        ((g.selected.map fun i => (g.tiles.getD i defaultTile).group).all
          (fun x => x == (g.selected.map fun i => (g.tiles.getD i defaultTile).group).headD ""))
          = false := by
      rcases Bool.eq_false_or_eq_true ((g.selected.map fun i =>
        (g.tiles.getD i defaultTile).group).all
        (fun x => x == (g.selected.map fun i => (g.tiles.getD i defaultTile).group).headD ""))
        with h | h
      · exact absurd (hiff.mp h) hc
      · exact h
    refine ⟨?_, ?_, ?_⟩ <;>
      · simp only [check_selection]
        rw [hcond]
        simp

/-- Witness for C8: the all-group-A selection evaluates as correct with the
two markers and marked tiles; the mixed selection evaluates as incorrect
with the single marker and untouched tiles. -/
theorem c8_witness :
    (check_selection fullSelG).1.guessCount = 1 ∧
    (check_selection fullSelG).2.1 = [.connGuess 1 1 true, .connEnd 1] ∧
    (check_selection fullSelG).2.2 = true ∧
    (check_selection mixedSelG).2.1 = [.connGuess 1 1 false] ∧
    (check_selection mixedSelG).1.tiles = mixedSelG.tiles := by
  have hApos : ∃ lab, ∀ i ∈ fullSelG.selected,
      (fullSelG.tiles.getD i defaultTile).group = lab := ⟨"A", by decide⟩
  have hBneg : ¬ ∃ lab, ∀ i ∈ mixedSelG.selected,
      (mixedSelG.tiles.getD i defaultTile).group = lab := by
    rintro ⟨lab, h⟩
    have h0 := h 0 (by decide)
    have hx := h 4 (by decide)
    rw [show (mixedSelG.tiles.getD 0 defaultTile).group = "A" from rfl] at h0
    rw [show (mixedSelG.tiles.getD 4 defaultTile).group = "B" from rfl] at hx
    rw [← h0] at hx
    exact absurd hx (by decide)
  exact ⟨(c8_check_selection_eval fullSelG (by decide) (by decide)).1,
    ((c8_check_selection_eval fullSelG (by decide) (by decide)).2.2.1 hApos).1,
    ((c8_check_selection_eval fullSelG (by decide) (by decide)).2.2.1 hApos).2.1,
    ((c8_check_selection_eval mixedSelG (by decide) (by decide)).2.2.2 hBneg).1,
    ((c8_check_selection_eval mixedSelG (by decide) (by decide)).2.2.2 hBneg).2.2⟩

/-- C10: every marker the program emits is the label prefixed as
Player<pid>_<label>; when the participant id is unset or empty the literal
prefix PlayerNA_ is used, so send_marker is total and never emits an
unprefixed label. -/
theorem c10_send_marker_format (pid : Option String) (label : String) :
    ((pid = none ∨ pid = some "") → send_marker pid label = "PlayerNA_" ++ label) ∧
    (∀ s, pid = some s → s ≠ "" → send_marker pid label = "Player" ++ s ++ "_" ++ label) := by
  constructor
  · intro h
    rcases h with h | h <;> subst h <;> rfl
  · intro s hs hne
    subst hs
    simp [send_marker, hne]

/-- Witness for C10 at the unset id and at a concrete nonempty id. -/
theorem c10_witness :
    send_marker none "Session_Start" = "PlayerNA_Session_Start" ∧
    send_marker (some "P01") "Session_Start" = "PlayerP01_Session_Start" :=
  ⟨(c10_send_marker_format none "Session_Start").1 (Or.inl rfl),
   (c10_send_marker_format (some "P01") "Session_Start").2 "P01" rfl (by decide)⟩

/-- C6: RATGame.force_advance maps Think to an immediate Reveal (cancelling
the think countdown), Reveal to a recorded No response (Response_N then End,
then Rest starts), Rest to an immediate Rest_End plus advance to the next
item or completion after the tenth, and is a no-op in Done. -/
theorem c6_force_advance_mapping (s : RATState) :
    (s.phase = .think →
      force_advance s =
        ({ s with phase := .reveal, awaiting := true, thinkPending := false }, [])) ∧
    (s.phase = .reveal → s.awaiting = true →
      force_advance s =
        ({ s with phase := .rest, awaiting := false, thinkPending := false,
                  restRemaining := 14, restPending := true },
         [.ratResponse (s.index + 1) false, .ratEnd (s.index + 1),
          .ratRestStart (s.index + 1)])) ∧
    (s.phase = .rest → s.index + 1 ≥ RAT_PROMPTS.length →
      force_advance s =
        ({ s with phase := .done, index := s.index + 1, thinkPending := false,
                  restPending := false },
         [.ratRestEnd (s.index + 1)])) ∧
    (s.phase = .rest → s.index + 1 < RAT_PROMPTS.length →
      force_advance s =
        ({ s with phase := .think, index := s.index + 1, awaiting := false,
                  thinkRemaining := 9, thinkPending := true, restPending := false },
         [.ratRestEnd (s.index + 1), .ratStart (s.index + 2)])) ∧
    (s.phase = .done → force_advance s = (s, [])) := by
  obtain ⟨idx, ph, aw, tr, rr, tp, rp⟩ := s
  refine ⟨?_, ?_, ?_, ?_, ?_⟩ <;> intro h
  · simp only at h
    subst h
    simp [force_advance, reveal_phase]
  · intro ha
    simp only at h ha
    subst h; subst ha
    simp [force_advance, on_no, start_rest_phase, tick_rest]
  · intro hi
    simp only at h hi
    subst h
    simp [force_advance, start_next_item, hi]
  · intro hi
    simp only at h hi
    subst h
    simp [force_advance, start_next_item, show_think_phase, tick_think, Nat.not_le.mpr hi]
  · simp only at h
    subst h
    simp [force_advance]

/-- Witness for C6 at concrete states in each of the four phases, including
the rest phase of both a middle item and the tenth item. -/
theorem c6_witness :
    force_advance thinkState =
      ({ thinkState with phase := .reveal, awaiting := true, thinkPending := false }, []) ∧
    force_advance revealState =
      ({ revealState with phase := .rest, awaiting := false, thinkPending := false,
                          restRemaining := 14, restPending := true },
       [.ratResponse 4 false, .ratEnd 4, .ratRestStart 4]) ∧
    force_advance restState =
      ({ restState with phase := .think, index := 3, awaiting := false,
                        thinkRemaining := 9, thinkPending := true, restPending := false },
       [.ratRestEnd 3, .ratStart 4]) ∧
    force_advance lastRestState =
      ({ lastRestState with phase := .done, index := 10, thinkPending := false,
                            restPending := false },
       [.ratRestEnd 10]) ∧
    force_advance doneState = (doneState, []) :=
  ⟨(c6_force_advance_mapping thinkState).1 rfl,
   (c6_force_advance_mapping revealState).2.1 rfl rfl,
   (c6_force_advance_mapping restState).2.2.2.1 rfl (by decide),
   (c6_force_advance_mapping lastRestState).2.2.1 rfl (by decide),
   (c6_force_advance_mapping doneState).2.2.2.2 rfl⟩

/-- C9: rating capture is first-choice-binding (the first click on 1..5
binds the choice and emits its marker) and later inputs are idempotent
no-ops: a click with a rating already bound changes nothing and emits
nothing, and a Y/N keypress after the first recorded response (which clears
the awaiting guard and leaves the reveal phase) changes nothing and emits
nothing. -/
theorem c9_idempotent_inputs :
    (∀ (cfg : Cfg) (v : Nat), cfg.restActive = true → cfg.ratingChoice = none →
       conn_select_rating cfg v =
         ({ cfg with ratingChoice := some v }, [.connQ cfg.restForIdx (some v)])) ∧
    (∀ (cfg : Cfg) (v c : Nat), cfg.ratingChoice = some c →
       conn_select_rating cfg v = (cfg, [])) ∧
    (∀ s : RATState, s.phase ≠ .reveal ∨ s.awaiting = false →
       on_yes s = (s, []) ∧ on_no s = (s, [])) ∧
    (∀ s : RATState, s.phase = .reveal → s.awaiting = true →
       (on_yes s).1.awaiting = false ∧ (on_yes s).1.phase = .rest ∧
       (on_no s).1.awaiting = false ∧ (on_no s).1.phase = .rest) := by
  refine ⟨?_, ?_, ?_, ?_⟩
  · intro cfg v h1 h2
    simp [conn_select_rating, h1, h2]
  · intro cfg v c h
    cases hr : cfg.restActive <;> simp [conn_select_rating, hr, h]
  · intro s h
    rcases h with h | h <;> constructor <;> simp [on_yes, on_no, h]
  · intro s h ha
    obtain ⟨idx, ph, aw, tr, rr, tp, rp⟩ := s
    simp only at h ha
    subst h; subst ha
    simp [on_yes, on_no, start_rest_phase, tick_rest]

/-- Witness for C9: a first click binds on the concrete rest configuration,
a second click is a no-op on the bound configuration, and Y/N inputs after
the recorded response are no-ops. -/
theorem c9_witness :
    conn_select_rating restCfg 3 = (boundCfg, [.connQ 1 (some 3)]) ∧
    conn_select_rating boundCfg 5 = (boundCfg, []) ∧
    on_yes doneState = (doneState, []) ∧
    (on_yes revealState).1.awaiting = false :=
  ⟨(c9_idempotent_inputs.1 restCfg 3 rfl rfl),
   (c9_idempotent_inputs.2.1 boundCfg 5 3 rfl),
   (c9_idempotent_inputs.2.2.1 doneState (Or.inl (by decide))).1,
   (c9_idempotent_inputs.2.2.2 revealState rfl rfl).1⟩

/-- Appending End-free markers preserves the after-a-correct property. -/
theorem eac_append_no_end (tr c : List Marker) (h1 : EndsAfterCorrect tr)
    (h2 : ∀ i, Marker.connEnd i ∉ c) : EndsAfterCorrect (tr ++ c) := by
  intro n i hn
  by_cases hlt : n < tr.length
  · rw [List.getElem?_append_left hlt] at hn
    obtain ⟨m, g, hm, hg⟩ := h1 n i hn
    exact ⟨m, g, hm, by rw [List.getElem?_append_left (lt_trans hm hlt)]; exact hg⟩
  · rw [List.getElem?_append_right (Nat.le_of_not_lt hlt)] at hn
    exact absurd (List.getElem?_mem hn) (h2 i)

/-- Appending one End marker preserves the property when a matching
Guess_Correct is already in the trace. -/
theorem eac_append_end (tr : List Marker) (i : Nat) (h1 : EndsAfterCorrect tr)
    (h2 : ∃ g, Marker.connGuess i g true ∈ tr) :
    EndsAfterCorrect (tr ++ [Marker.connEnd i]) := by
  intro n j hn
  by_cases hlt : n < tr.length
  · rw [List.getElem?_append_left hlt] at hn
    obtain ⟨m, g, hm, hg⟩ := h1 n j hn
    exact ⟨m, g, hm, by rw [List.getElem?_append_left (lt_trans hm hlt)]; exact hg⟩
  · have hle := Nat.le_of_not_lt hlt
    rw [List.getElem?_append_right hle] at hn
    have hlen := (List.getElem?_eq_some.mp hn).1
    have hn0 : n - tr.length = 0 := by
      simp only [List.length_cons, List.length_nil] at hlen
      omega
    rw [hn0] at hn
    simp only [List.getElem?_cons_zero, Option.some.injEq, Marker.connEnd.injEq] at hn
    subst hn
    obtain ⟨g, hg⟩ := h2
    obtain ⟨m, hmlt, hm⟩ := List.getElem_of_mem hg
    refine ⟨m, g, by omega, ?_⟩
    rw [List.getElem?_append_left hmlt, List.getElem?_eq_getElem hmlt, hm]

/-- No End marker is emitted by a rest end. -/
theorem no_end_end_connections_rest (tf : Nat → List Tile) (cfg : Cfg) (i : Nat) :
    Marker.connEnd i ∉ (end_connections_rest tf cfg).2 := by
  intro hm
  by_cases h : cfg.completed < 15 <;> by_cases hrc : cfg.ratingChoice = none <;>
    simp [end_connections_rest, newConnGame, h, hrc] at hm

/-- No End marker is emitted by a rest countdown tick. -/
theorem no_end_tick_connections_rest (tf : Nat → List Tile) (cfg : Cfg) (i : Nat) :
    Marker.connEnd i ∉ (tick_connections_rest tf cfg).2 := by
  simp only [tick_connections_rest]
  split
  · simp
  · split
    · simp
    · exact no_end_end_connections_rest tf cfg i

/-- No End marker is emitted by a rest start. -/
theorem no_end_start_connections_rest (tf : Nat → List Tile) (j : Nat) (cfg : Cfg)
    (i : Nat) : Marker.connEnd i ∉ (start_connections_rest tf j cfg).2 := by
  simp only [start_connections_rest]
  intro hm
  rcases List.mem_append.mp hm with h1 | h1
  · simp at h1
  · exact no_end_tick_connections_rest tf _ i h1

/-- No End marker is emitted by a rating click. -/
theorem no_end_conn_select_rating (cfg : Cfg) (v i : Nat) :
    Marker.connEnd i ∉ (conn_select_rating cfg v).2 := by
  simp only [conn_select_rating]
  split
  · simp
  · split
    · simp
    · simp

/-- No End marker is emitted by a puzzle completion callback. -/
theorem no_end_on_connections_puzzle_complete (tf : Nat → List Tile) (cfg : Cfg)
    (i : Nat) : Marker.connEnd i ∉ (on_connections_puzzle_complete tf cfg).2 :=
  no_end_start_connections_rest tf _ _ i

/-- No End marker is emitted by a master skip. -/
theorem no_end_master_skip (tf : Nat → List Tile) (cfg : Cfg) (i : Nat) :
    Marker.connEnd i ∉ (master_skip tf cfg).2 := by
  rcases hlon : cfg.lastOnNext with _ | cb
  · simp only [master_skip, hlon]
    split
    · exact no_end_end_connections_rest tf cfg i
    · rcases hconn : cfg.conn with _ | g <;> simp only [hconn]
      · simp
      · exact no_end_on_connections_puzzle_complete tf cfg i
  · rcases cb with _ | _ <;> simp only [master_skip, hlon]
    · exact no_end_end_connections_rest tf _ i
    · simp

/-- No End marker is emitted at evaluation entry: the End is deferred to
the flashDone resumption. -/
theorem no_end_toggle_tile_enter (g : ConnGame) (idx i : Nat) :
    Marker.connEnd i ∉ (toggle_tile_enter g idx).2.1 := by
  simp only [toggle_tile_enter, check_selection_enter]
  split
  · simp
  · split
    · split <;> simp
    · simp

/-- Whenever evaluation entry pushes a flash frame, its own Guess_Correct
marker for the same puzzle index is among the emitted markers. -/
theorem toggle_tile_enter_push (g : ConnGame) (idx : Nat) :
    (toggle_tile_enter g idx).2.2 = false ∨
    ∃ gg, Marker.connGuess g.puzzleIndex gg true ∈ (toggle_tile_enter g idx).2.1 := by
  simp only [toggle_tile_enter, check_selection_enter]
  split
  · exact Or.inl rfl
  · split
    · split
      · exact Or.inr ⟨g.guessCount + 1, by simp⟩
      · exact Or.inl rfl
    · exact Or.inl rfl

/-- One refined step preserves the after-a-correct property of the whole
trace and the justification of the open flash frames. -/
theorem stepR_preserves (tf : Nat → List Tile) (r : RCfg) (e : EvR) (tr : List Marker)
    (h1 : EndsAfterCorrect tr) (h2 : FramesJustified r tr) :
    EndsAfterCorrect (tr ++ (stepR tf r e).2) ∧
    FramesJustified (stepR tf r e).1 (tr ++ (stepR tf r e).2) := by
  have hkeep : ∀ (r₂ : RCfg) (c : List Marker), r₂.flash = r.flash →
      FramesJustified r₂ (tr ++ c) := by
    intro r₂ c hf i hi
    rw [hf] at hi
    exact (h2 i hi).imp fun g hg => List.mem_append_left _ hg
  cases e with
  | toggle idx =>
      cases hui : r.cfg.ui <;> rcases hconn : r.cfg.conn with _ | g <;>
        simp only [stepR, hui, hconn]
      case puzzle.some =>
        constructor
        · exact eac_append_no_end _ _ h1 fun i => no_end_toggle_tile_enter g idx i
        · intro i hi
          by_cases hflag : (toggle_tile_enter g idx).2.2 = true
          · simp only [hflag, if_true] at hi
            rcases List.mem_append.mp hi with h0 | h0
            · have hi1 : i = g.puzzleIndex := by simpa using h0
              subst hi1
              rcases toggle_tile_enter_push g idx with hf | ⟨gg, hmem⟩
              · rw [hf] at hflag
                exact absurd hflag (by simp)
              · exact ⟨gg, List.mem_append_right _ hmem⟩
            · exact (h2 i h0).imp fun gg hg => List.mem_append_left _ hg
          · simp only [Bool.not_eq_true] at hflag
            simp only [hflag, if_false, List.nil_append] at hi
            exact (h2 i hi).imp fun gg hg => List.mem_append_left _ hg
      all_goals exact ⟨eac_append_no_end _ _ h1 (by simp), hkeep _ _ rfl⟩
  | deselectAll =>
      cases hui : r.cfg.ui <;> rcases hconn : r.cfg.conn with _ | g <;>
        simp only [stepR, hui, hconn] <;>
        exact ⟨eac_append_no_end _ _ h1 (by simp), hkeep _ _ rfl⟩
  | rate v =>
      exact ⟨eac_append_no_end _ _ h1 fun i => no_end_conn_select_rating r.cfg v i,
        hkeep _ _ rfl⟩
  | restTick =>
      simp only [stepR]
      split
      · exact ⟨eac_append_no_end _ _ h1 fun i => no_end_tick_connections_rest tf _ i,
          hkeep _ _ rfl⟩
      · exact ⟨eac_append_no_end _ _ h1 (by simp), hkeep _ _ rfl⟩
  | fireComplete =>
      simp only [stepR]
      split
      · exact ⟨eac_append_no_end _ _ h1
          (fun i => no_end_on_connections_puzzle_complete tf _ i), hkeep _ _ rfl⟩
      · exact ⟨eac_append_no_end _ _ h1 (by simp), hkeep _ _ rfl⟩
  | skip =>
      exact ⟨eac_append_no_end _ _ h1 fun i => no_end_master_skip tf r.cfg i,
        hkeep _ _ rfl⟩
  | flashDone =>
      rcases hfl : r.flash with _ | ⟨pidx, rest⟩ <;> simp only [stepR, hfl]
      · exact ⟨eac_append_no_end _ _ h1 (by simp), hkeep r [] rfl⟩
      · constructor
        · exact eac_append_end tr pidx h1 (h2 pidx (hfl ▸ List.mem_cons_self pidx rest))
        · intro i hi
          have : i ∈ r.flash := hfl ▸ List.mem_cons_of_mem pidx hi
          exact (h2 i this).imp fun g hg => List.mem_append_left _ hg

/-- Running any refined event list preserves the after-a-correct property
of the accumulated trace. -/
theorem runRFrom_inv (tf : Nat → List Tile) :
    ∀ (evs : List EvR) (r : RCfg) (tr : List Marker),
      EndsAfterCorrect tr → FramesJustified r tr →
      EndsAfterCorrect (tr ++ (runRFrom tf r evs).2) := by
  intro evs
  induction evs with
  | nil =>
      intro r tr h1 h2
      simpa [runRFrom] using h1
  | cons e es ih =>
      intro r tr h1 h2
      have hs := stepR_preserves tf r e tr h1 h2
      have hr := ih (stepR tf r e).1 (tr ++ (stepR tf r e).2) hs.1 hs.2
      simp only [runRFrom]
      simpa [List.append_assoc] using hr

/-- C2 (amended): in every run of the refined Connections-stage model, in
which evaluation is non-atomic (the flash window between the Guess_Correct
and End emissions admits dispatched input events, nested evaluations
included), every Connections<i>_End marker still comes after a
Connections<i>_Guess<g>_Correct marker with the same block index at a
strictly earlier trace position; but a block left by a forced skip emits no
End marker at all, so a run with forced skips can have blocks with zero End
markers and the exactly-one part of the claim fails. -/
theorem c2_end_after_correct (tf : Nat → List Tile) (evs : List EvR) :
    EndsAfterCorrect (runR tf evs).2 := by
  have h0 : EndsAfterCorrect ((initC tf).2) := by
    intro n i hn
    rcases n with _ | n <;> simp [initC, newConnGame] at hn
  have h2 : FramesJustified { cfg := (initC tf).1, flash := [] } ((initC tf).2) := by
    intro i hi
    simp at hi
  have hr := runRFrom_inv tf evs { cfg := (initC tf).1, flash := [] } ((initC tf).2) h0 h2
  simpa [runR] using hr

/-- The refined model really produces the interleaved traces the source
allows: a tile click dispatched during the success flash re-enters the
evaluation on the still-full selection and emits a second
Guess_Correct/End pair, giving two adjacent End markers (so the stronger
immediately-after formulation fails, while each End still has an earlier
matching Guess_Correct). -/
theorem flash_reentrancy_run :
    (runR demoTiles [.toggle 0, .toggle 1, .toggle 2, .toggle 3, .toggle 4,
                     .flashDone, .flashDone]).2 =
      [.connStart 1, .connGuess 1 1 true, .connGuess 1 2 true,
       .connEnd 1, .connEnd 1] := by
  decide


/-- C2 counterexample: thirty consecutive master skips drive the stage
through all fifteen blocks to the RAT instructions (block 1 in particular
is entered and left, witnessed by its Rest_End marker), yet the run emits
zero Connections1_End markers, refuting one End marker per block over runs
with forced skips. -/
theorem c2_counterexample :
    (runC demoTiles (List.replicate 30 .skip)).1.completed = 15 ∧
    (runC demoTiles (List.replicate 30 .skip)).1.ui = UiKind.ratInstr ∧
    (runC demoTiles (List.replicate 30 .skip)).2.count (Marker.connRestEnd 1) = 1 ∧
    (runC demoTiles (List.replicate 30 .skip)).2.count (Marker.connEnd 1) = 0 := by
  decide

/-- C3 (failing input evaluated): a correct guess on puzzle 1 schedules the
2500 ms on_complete delay; a master skip during that delay advances to the
rest for puzzle 1; when the delay then expires the unguarded, uncancelled
callback runs a second completion: the completion counter reaches 2 and a
rest for puzzle 2 starts, although only one puzzle was completed (one
Connections1_End in the trace). -/
theorem c3_unguarded_delay_eval :
    (runC demoTiles
      [.toggle 0, .toggle 1, .toggle 2, .toggle 3, .skip, .fireComplete]).1.completed = 2 ∧
    (runC demoTiles
      [.toggle 0, .toggle 1, .toggle 2, .toggle 3, .skip, .fireComplete]).2.count
        (Marker.connEnd 1) = 1 ∧
    (runC demoTiles
      [.toggle 0, .toggle 1, .toggle 2, .toggle 3, .skip, .fireComplete]).2.count
        (Marker.connRestStart 1) = 1 ∧
    (runC demoTiles
      [.toggle 0, .toggle 1, .toggle 2, .toggle 3, .skip, .fireComplete]).2.count
        (Marker.connRestStart 2) = 1 := by
  decide

/-- C4 (failing input evaluated): after the rest for puzzle 1 expires
naturally the source leaves _last_on_next pointing at
_end_connections_rest; a master skip during puzzle 2 therefore re-runs the
rest-end path: the single rating prompt of puzzle 1 (only one puzzle was
completed) gets two ConnectionQ1_NoResponse markers, two entries in the
spontaneity sequence and two Connections1_Rest_End markers. -/
theorem c4_duplicate_terminal_rating_eval :
    (runC demoTiles ([.skip] ++ List.replicate 15 .restTick ++ [.skip])).1.completed = 1 ∧
    (runC demoTiles ([.skip] ++ List.replicate 15 .restTick ++ [.skip])).2.count
      (Marker.connQ 1 none) = 2 ∧
    (runC demoTiles ([.skip] ++ List.replicate 15 .restTick ++ [.skip])).1.spontaneity
      = [none, none] ∧
    (runC demoTiles ([.skip] ++ List.replicate 15 .restTick ++ [.skip])).2.count
      (Marker.connRestEnd 1) = 2 := by
  decide

end ERPConrat
